import Mathlib

/-!
# AimerWT telemetry backend: `main.go`

A shallow embedding of `src/AimerWT_Telemetry/main.go` and the properties of it
that the specification states.

* Go strings are written as Lean `String`s (the functions embedded here copy and
  compare their elements and never look inside one); `fmt.Sprintf`, `strings.Join`
  and `os.Getenv` are modelled as far as the source uses them.
* A `gin.Context` is reduced to what a handler can read from the request: the
  decoded query parameters in their order of appearance, the headers and the body.
* The process (package-level variables, `loadDashboard`, `initDB`, `main`) is a
  state-passing model over `Globals`, with the actions performed recorded in order.
* The WebSocket hub is not part of `main.go`; it is modelled from the specification.
-/

namespace AimerWT

/-! ## Library functions used by the source -/

/-- Worker of `Sprintf`: walks the format; `pend` says that the previous character
was a `%`. Only the verb `%s` is interpreted (the only verb of the formats in
`buildWhereClause`); the operand is written out unchanged. A second `%s` finds no
operand left and prints Go's `%!s(MISSING)`. -/
def sprintfGo : List Char → Bool → Option String → List Char
  | [], pend, _ => if pend then "%!(NOVERB)".data else []
  | c :: rest, true, arg =>
    if c = 's' then
      match arg with
      | some a => a.data ++ sprintfGo rest false none
      | none => "%!s(MISSING)".data ++ sprintfGo rest false none
    else '%' :: c :: sprintfGo rest false arg
  | c :: rest, false, arg =>
    if c = '%' then sprintfGo rest true arg else c :: sprintfGo rest false arg

/-- Go `fmt.Sprintf(format, arg)` for a string operand. -/
def Sprintf (format : String) (arg : String) : String :=
  ⟨sprintfGo format.data false (some arg)⟩

/-- Go `strings.Join(elems, sep)`. -/
def Join : List String → String → String
  | [], _ => ""
  | [a], _ => a
  | a :: b :: rest, sep => a ++ sep ++ Join (b :: rest) sep

/-! ## The request -/

/-- What a handler can read of a request through `*gin.Context`: the decoded query
parameters (name, value) in their order of appearance in the URL, the headers and
the body. -/
structure Context where
  query : List (String × String)
  headers : List (String × String)
  body : String

/-- Gin `c.GetQuery(key)`: the first value given for `key` and `true`, or `""` and
`false` when the URL has no such parameter. -/
def Context.GetQuery (c : Context) (key : String) : String × Bool :=
  match c.query.find? (fun p => p.1 == key) with
  | some p => (p.2, true)
  | none => ("", false)

/-- Gin `c.Query(key)`: the first value given for `key`, `""` when there is none. -/
def Context.Query (c : Context) (key : String) : String :=
  (c.GetQuery key).1

/-- The request with the given query parameters, no headers and an empty body. -/
def request (query : List (String × String)) : Context :=
  { query := query, headers := [], body := "" }

/-! ## `buildWhereClause` (main.go, lines 70-82) -/

/-- The local variable `clauses` of `buildWhereClause` when line 78 is reached. -/
def whereClauses (c : Context) : List String :=
  let clauses : List String := []
  let value := c.Query "value"
  let clauses := if value ≠ "" then clauses ++ [Sprintf "value = '%s'" value] else clauses
  let arch := c.Query "arch"
  let clauses := if arch ≠ "" then clauses ++ [Sprintf "arch = '%s'" arch] else clauses
  clauses

/-- The function `buildWhereClause` of main.go. -/
def buildWhereClause (c : Context) : String :=
  let clauses := whereClauses c
  if clauses.length > 0 then " AND " ++ Join clauses " AND " else ""

/-- The error kinds of the specification's filter engine. -/
inductive FilterError
  | UnrecognizedAttribute
  deriving DecidableEq, Repr

/-- The outcome of a call of `buildWhereClause`. Its Go result type is `string`
alone, and its body has no panic or exit path: every call returns a clause. -/
def buildWhereClauseOutcome (c : Context) : Except FilterError String :=
  Except.ok (buildWhereClause c)

/-- The filter whitelist of the specification. -/
def whitelist : List String := ["value", "arch"]

/-! ## The process: package-level variables, `loadDashboard`, `initDB`, `main` -/

/-- What the surroundings of the process answer: the environment variables, the
result of opening the database (`none`: opened; `some e`: the error), and the
result pair `(data, err)` of `ioutil.ReadFile` for a path. -/
structure World where
  env : List (String × String)
  dbOpenErr : Option String
  readFile : String → ByteArray × Option String

/-- Go `os.Getenv(key)`: the value of the variable, `""` when it is unset. -/
def Getenv (w : World) (key : String) : String :=
  match w.env.lookup key with
  | some v => v
  | none => ""

/-- The observable actions of the process. -/
inductive Action
  | gormOpen (file : String)
  | autoMigrate
  | logPrintf (line : String)
  | logFatalf (line : String)
  | newWebSocketHub
  | goHubRun
  | ginDefault
  | initRouter
  | run (addr : String)
  deriving DecidableEq, Repr

/-- The package-level variables of main.go (`dashboardHTML`, `db`, `adminUser`,
`adminPass`, and `wsHub`, declared elsewhere in the package), together with the
actions performed so far, oldest first. -/
structure Globals where
  dashboardHTML : ByteArray
  dbOpened : Bool
  wsHubCreated : Bool
  adminUser : String
  adminPass : String
  actions : List Action

/-- How a procedure ends: it returns to its caller, or the process exits through
`log.Fatalf`. Both carry the state reached. -/
inductive Exit
  | returned (g : Globals)
  | fatal (g : Globals)

/-- Sequencing: the next procedure runs only when the previous one returned. -/
def Exit.andThen : Exit → (Globals → Exit) → Exit
  | Exit.returned g, k => k g
  | Exit.fatal g, _ => Exit.fatal g

/-- Appends an action to the record. -/
def Globals.act (g : Globals) (a : Action) : Globals :=
  { g with actions := g.actions ++ [a] }

/-- The package-level initialisers (lines 15-22), run before `main`. -/
def initGlobals (w : World) : Globals :=
  { dashboardHTML := ByteArray.empty
    dbOpened := false
    wsHubCreated := false
    adminUser := Getenv w "TELEMETRY_ADMIN_USER"
    adminPass := Getenv w "TELEMETRY_ADMIN_PASS"
    actions := [] }

/-- The function `initDB` of main.go. -/
def initDB (w : World) (g : Globals) : Exit :=
  let g := g.act (Action.gormOpen "telemetry.db")
  match w.dbOpenErr with
  | some err => Exit.fatal (g.act (Action.logFatalf ("数据库连接失败: " ++ err)))
  | none => Exit.returned ({ g with dbOpened := true }.act Action.autoMigrate)

/-- The placeholder page of `loadDashboard` (line 38). -/
def placeholderPage : String :=
  "<html><body><h1>Dashboard template not found</h1></body></html>"

/-- The function `loadDashboard` of main.go. -/
def loadDashboard (w : World) (g : Globals) : Exit :=
  let (data, err) := w.readFile "dashboard/index.html"
  let g := { g with dashboardHTML := data }
  match err with
  | some e =>
    let g := g.act (Action.logPrintf ("警告: 无法加载 dashboard/index.html: " ++ e))
    Exit.returned { g with dashboardHTML := placeholderPage.toUTF8 }
  | none =>
    Exit.returned (g.act (Action.logPrintf
      ("成功加载 dashboard 模板，大小: " ++ toString g.dashboardHTML.size ++ " 字节")))

/-- The message of the credential check of `main` (line 55). -/
def credentialMessage : String :=
  "请设置环境变量 TELEMETRY_ADMIN_USER 和 TELEMETRY_ADMIN_PASS"

/-- The function `main` of main.go. `initRouter`, `NewWebSocketHub` and the hub's
`Run` are defined elsewhere in the package and `gin.Default`, `r.Run` in the
library: each is recorded as an action. -/
def main (w : World) (g : Globals) : Exit :=
  (initDB w g).andThen fun g =>
  (loadDashboard w g).andThen fun g =>
  let g := { g with wsHubCreated := true }.act Action.newWebSocketHub
  let g := g.act Action.goHubRun
  let g := g.act Action.ginDefault
  if g.adminUser = "" ∨ g.adminPass = "" then
    Exit.fatal (g.act (Action.logFatalf credentialMessage))
  else
    let g := g.act Action.initRouter
    let port := Getenv w "PORT"
    let port := if port = "" then "8080" else port
    let g := g.act (Action.logPrintf ("遥测后端已启动在 :" ++ port ++ " (WebSocket: /ws)\n"))
    Exit.returned (g.act (Action.run (":" ++ port)))

/-- The process from its start: the package-level initialisers, then `main`. -/
def runProcess (w : World) : Exit :=
  main w (initGlobals w)

/-- A handler's call of `buildWhereClause` inside the process: the body names no
package-level variable, so the state is handed through unchanged. -/
def buildWhereClauseIn (c : Context) (g : Globals) : String × Globals :=
  (buildWhereClause c, g)

/-! ## Reading a clause by the SQL string-literal rules -/

/-- The single-quote character. -/
def quote : Char := Char.ofNat 39

/-- Puts a decoded character in front of the literal read from the rest. -/
def consLiteral (c : Char) : Option (List Char × List Char) → Option (List Char × List Char)
  | some (lit, rest) => some (c :: lit, rest)
  | none => none

/-- Reads a string literal whose opening quote has just been consumed: the literal
ends at the next quote that is not doubled, and a doubled quote stands for one
quote character. Returns the decoded content and the text after the closing quote,
or `none` when the literal is not closed. -/
def readLiteral : List Char → Option (List Char × List Char)
  | [] => none
  | [c] => if c = quote then some ([], []) else none
  | c :: d :: rest =>
    if c = quote then
      if d = quote then consLiteral quote (readLiteral rest) else some ([], d :: rest)
    else consLiteral c (readLiteral (d :: rest))

/-- Removes the prefix `p` from `s`, `none` when `s` does not start with `p`. -/
def dropPrefix : List Char → List Char → Option (List Char)
  | [], s => some s
  | _ :: _, [] => none
  | a :: p, b :: s => if a = b then dropPrefix p s else none

/-- The longest prefix of letters, digits and underscores, and the rest. -/
def readName (s : List Char) : List Char × List Char :=
  s.span fun ch => ch.isAlphanum || ch = '_'

/-- Reads a text of the shape ` AND name = 'literal'` repeated to the end of the
text, with literals read by `readLiteral`: the comparisons (name, decoded literal)
in order, or `none` when the text is not such a conjunction of equality
comparisons. `fuel` bounds the number of comparisons. -/
def readComparisons : Nat → List Char → Option (List (String × String))
  | _, [] => some []
  | 0, _ :: _ => none
  | fuel + 1, c :: s =>
    match dropPrefix " AND ".data (c :: s) with
    | none => none
    | some s1 =>
      match readName s1 with
      | ([], _) => none
      | (n :: name, s2) =>
        match dropPrefix " = ".data s2 with
        | none => none
        | some s3 =>
          match dropPrefix [quote] s3 with
          | none => none
          | some s4 =>
            match readLiteral s4 with
            | none => none
            | some (lit, s5) =>
              match readComparisons fuel s5 with
              | none => none
              | some more => some ((String.mk (n :: name), String.mk lit) :: more)

/-- The comparisons of a clause text as SQL reads them. A clause of n comparisons
has more than n characters, so its length is fuel enough. -/
def readClause (clause : String) : Option (List (String × String)) :=
  readComparisons clause.length clause.data

/-- The comparisons a request asks for: one per non-empty whitelisted parameter,
`value` before `arch`, each against the supplied string. -/
def requestedComparisons (c : Context) : List (String × String) :=
  (if c.Query "value" ≠ "" then [("value", c.Query "value")] else []) ++
  (if c.Query "arch" ≠ "" then [("arch", c.Query "arch")] else [])

/-! ## The broadcast hub

`main` creates the hub with `NewWebSocketHub` and starts its loop (lines 48-50);
the hub itself is defined in another file of the package. The definitions of this
section follow sections 3, 4.1, 4.2 and 5 of the specification. -/

/-- Modelled from the spec: a TelemetryRecord (section 3), the type declaration is
not in main.go. An identifier, the `value` and `arch` fields. -/
structure TelemetryRecord where
  id : Nat
  value : String
  arch : String
  deriving DecidableEq, Repr

/-- Modelled from the spec: a BroadcastEvent (section 3), a record wrapped with the
sequence number the hub assigns at publish time. -/
structure BroadcastEvent where
  seq : Nat
  record : TelemetryRecord
  deriving DecidableEq, Repr

/-- Modelled from the spec: a Session (section 3), one connected viewer with its
bounded outbound queue (oldest event first). `sent` holds the events the viewer's
connection has already taken from the queue, oldest first. -/
structure Session where
  id : Nat
  capacity : Nat
  queue : List BroadcastEvent
  sent : List BroadcastEvent
  deriving DecidableEq, Repr

/-- Modelled from the spec: everything delivered to a session so far, in order: what
the connection has taken and what still waits in the queue. -/
def Session.delivered (s : Session) : List BroadcastEvent :=
  s.sent ++ s.queue

/-- Modelled from the spec: `Enqueue(handle, event)` of the Session Registry
(section 4.1), a non-blocking attempt: `none` (the spec's `false`) when the queue
is full, otherwise the session with the event at the end of its queue. -/
def Session.Enqueue (s : Session) (e : BroadcastEvent) : Option Session :=
  if s.queue.length < s.capacity then some { s with queue := s.queue ++ [e] } else none

/-- Modelled from the spec: the viewer's connection takes the oldest event from the
session's queue; nothing happens on an empty queue. -/
def Session.take (s : Session) : Session :=
  match s.queue with
  | [] => s
  | e :: rest => { s with queue := rest, sent := s.sent ++ [e] }

/-- Modelled from the spec: the Broadcast Hub with its Session Registry (sections
4.1, 4.2): the live sessions in registration order, the configured maximum number
of concurrent sessions, and the next sequence number. -/
structure Hub where
  sessions : List Session
  maxSessions : Nat
  nextSeq : Nat

/-- Modelled from the spec: the three event types of the hub's inbound channel
(section 4.2). -/
inductive HubEvent
  | NewRecord (record : TelemetryRecord)
  | SessionJoined (session : Session)
  | SessionLeft (sessionID : Nat)

/-- Modelled from the spec: `Register(session)` (section 4.1): adds the session,
or fails with CapacityExceeded (`none`) when the maximum is reached. -/
def Hub.Register (h : Hub) (s : Session) : Option Hub :=
  if h.sessions.length < h.maxSessions then some { h with sessions := h.sessions ++ [s] }
  else none

/-- Modelled from the spec: `Unregister(handle)` (section 4.1): idempotent
removal. -/
def Hub.Unregister (h : Hub) (sessionID : Nat) : Hub :=
  { h with sessions := h.sessions.filter fun s => s.id ≠ sessionID }

/-- Modelled from the spec: `Snapshot()` (section 4.1): the live sessions in
order. -/
def Hub.Snapshot (h : Hub) : List Session :=
  h.sessions

/-- Modelled from the spec: the hub's handling of `NewRecord` (section 4.2): the
record is wrapped with the next sequence number; for each session of the snapshot
a non-blocking enqueue is attempted; a session whose queue is full is evicted
(unregistered), the others keep their place. -/
def Hub.publish (h : Hub) (r : TelemetryRecord) : Hub :=
  let e : BroadcastEvent := { seq := h.nextSeq, record := r }
  { h with
    sessions := h.Snapshot.filterMap fun s => s.Enqueue e
    nextSeq := h.nextSeq + 1 }

/-- Modelled from the spec: one turn of the hub's coordination loop (section 4.2),
events handled one at a time in arrival order. A refused registration leaves
the hub unchanged. -/
def Hub.handle (h : Hub) : HubEvent → Hub
  | HubEvent.NewRecord r => h.publish r
  | HubEvent.SessionJoined s =>
    match h.Register s with
    | some h1 => h1
    | none => h
  | HubEvent.SessionLeft sid => h.Unregister sid

/-- Modelled from the spec: a step of the system around the hub: the hub handles
the next event of its inbound channel, or the connection of the session with the
given identifier takes an event from its queue (section 5: producers, the hub loop
and the viewers run concurrently; an execution is an interleaving of such
steps). -/
inductive Step
  | hub (e : HubEvent)
  | viewerTakes (sessionID : Nat)

/-- Modelled from the spec: the effect of one step. -/
def Hub.step (h : Hub) : Step → Hub
  | Step.hub e => h.handle e
  | Step.viewerTakes sid =>
    { h with sessions := h.sessions.map fun s => if s.id = sid then s.take else s }

/-- Modelled from the spec: the effect of a sequence of steps, in order. -/
def Hub.run (h : Hub) : List Step → Hub
  | [] => h
  | st :: rest => (h.step st).run rest

/-- Modelled from the spec: the registered session with the given identifier. -/
def Hub.session (h : Hub) (sid : Nat) : Option Session :=
  h.sessions.find? fun s => s.id = sid

/-- Modelled from the spec: the steps are publications and viewers taking events
only: no session joins or leaves, so the registry changes by eviction alone. -/
def publishing : List Step → Bool
  | [] => true
  | Step.hub (HubEvent.NewRecord _) :: rest => publishing rest
  | Step.viewerTakes _ :: rest => publishing rest
  | Step.hub _ :: _ => false

/-- Modelled from the spec: the records published by a sequence of steps, in the
order the hub handles them. -/
def publishedRecords : List Step → List TelemetryRecord
  | [] => []
  | Step.hub (HubEvent.NewRecord r) :: rest => r :: publishedRecords rest
  | _ :: rest => publishedRecords rest

/-- Modelled from the spec: the BroadcastEvents of the records published by a
sequence of steps, numbered from `seq` on in the order the hub handles them. -/
def publishedEvents (seq : Nat) : List Step → List BroadcastEvent
  | [] => []
  | Step.hub (HubEvent.NewRecord r) :: rest =>
    { seq := seq, record := r } :: publishedEvents (seq + 1) rest
  | _ :: rest => publishedEvents seq rest

/-- Modelled from the spec: the queue of the session `sid` never fills: the session
is registered and, whenever the hub publishes, its queue is not full (section 7:
a delivery is dropped when the queue "was full at publish time"). -/
def queueNeverFills (sid : Nat) : Hub → List Step → Bool
  | h, [] => (h.session sid).isSome
  | h, st :: rest =>
    (match st, h.session sid with
      | Step.hub (HubEvent.NewRecord _), some s => decide (s.queue.length < s.capacity)
      | _, some _ => true
      | _, none => false) &&
    queueNeverFills sid (h.step st) rest

/-- Modelled from the spec: a record as in the example scenario of section 8. -/
def sampleRecord (id : Nat) : TelemetryRecord :=
  { id := id, value := "temp=42", arch := "arm64" }

/-- Modelled from the spec: a hub with three registered sessions whose queues hold
3, 1 and 8 events, all empty, and 5 as its next sequence number. -/
def sampleHub : Hub :=
  { sessions := [⟨1, 3, [], []⟩, ⟨2, 1, [], []⟩, ⟨3, 8, [], []⟩]
    maxSessions := 8
    nextSeq := 5 }

/-- Modelled from the spec: three publications; the viewer of session 1 takes an
event after the first, the viewer of session 3 one at the end. -/
def sampleSteps : List Step :=
  [Step.hub (HubEvent.NewRecord (sampleRecord 10)), Step.viewerTakes 1,
    Step.hub (HubEvent.NewRecord (sampleRecord 11)),
    Step.hub (HubEvent.NewRecord (sampleRecord 12)), Step.viewerTakes 3]

/-- The variable is unset, or set to the empty string. -/
def unsetOrEmpty (w : World) (key : String) : Prop :=
  w.env.lookup key = none ∨ w.env.lookup key = some ""

/-- The address `main` listens on (lines 61-64, 67): the port of the environment,
8080 when there is none. -/
def listenAddr (w : World) : String :=
  ":" ++ (if Getenv w "PORT" = "" then "8080" else Getenv w "PORT")

/-! ## Basic facts -/

theorem sprintf_value (v : String) : Sprintf "value = '%s'" v = "value = '" ++ v ++ "'" := rfl

theorem sprintf_arch (a : String) : Sprintf "arch = '%s'" a = "arch = '" ++ a ++ "'" := rfl

theorem string_eq_iff_data (s t : String) : s = t ↔ s.data = t.data :=
  ⟨fun h => by rw [h], String.ext⟩

theorem string_ne_empty_iff (s : String) : s ≠ "" ↔ s.data ≠ [] := by
  rw [Ne, string_eq_iff_data]

theorem whereClauses_eq (c : Context) :
    whereClauses c =
      (if c.Query "value" ≠ "" then ["value = '" ++ c.Query "value" ++ "'"] else []) ++
      (if c.Query "arch" ≠ "" then ["arch = '" ++ c.Query "arch" ++ "'"] else []) := by
  unfold whereClauses
  by_cases hv : c.Query "value" = "" <;> by_cases ha : c.Query "arch" = "" <;>
    simp [hv, ha, sprintf_value, sprintf_arch]

theorem buildWhereClause_none (c : Context) (hv : c.Query "value" = "")
    (ha : c.Query "arch" = "") : buildWhereClause c = "" := by
  simp [buildWhereClause, whereClauses_eq, hv, ha]

theorem buildWhereClause_value (c : Context) (hv : c.Query "value" ≠ "")
    (ha : c.Query "arch" = "") :
    buildWhereClause c = " AND value = '" ++ c.Query "value" ++ "'" := by
  simp [buildWhereClause, whereClauses_eq, hv, ha, Join, string_eq_iff_data]

theorem buildWhereClause_arch (c : Context) (hv : c.Query "value" = "")
    (ha : c.Query "arch" ≠ "") :
    buildWhereClause c = " AND arch = '" ++ c.Query "arch" ++ "'" := by
  simp [buildWhereClause, whereClauses_eq, hv, ha, Join, string_eq_iff_data]

theorem buildWhereClause_both (c : Context) (hv : c.Query "value" ≠ "")
    (ha : c.Query "arch" ≠ "") :
    buildWhereClause c =
      " AND value = '" ++ c.Query "value" ++ "' AND arch = '" ++ c.Query "arch" ++ "'" := by
  simp [buildWhereClause, whereClauses_eq, hv, ha, Join, string_eq_iff_data]


theorem find_filter_of_imp {α : Type} (p q : α → Bool) (h : ∀ a, p a = true → q a = true)
    (l : List α) : (l.filter q).find? p = l.find? p := by
  induction l with
  | nil => rfl
  | cons a l ih =>
    cases hq : q a <;> cases hp : p a
    · rw [List.filter_cons_of_neg (by simp [hq]), List.find?_cons_of_neg _ (by simp [hp]), ih]
    · rw [h a hp] at hq
      cases hq
    · rw [List.filter_cons_of_pos hq, List.find?_cons_of_neg _ (by simp [hp]),
        List.find?_cons_of_neg _ (by simp [hp]), ih]
    · rw [List.filter_cons_of_pos hq, List.find?_cons_of_pos _ hp, List.find?_cons_of_pos _ hp]

theorem query_filter_whitelist (c : Context) (key : String) (hk : key ∈ whitelist) :
    Context.Query { c with query := c.query.filter fun p => decide (p.1 ∈ whitelist) } key =
      c.Query key := by
  simp only [Context.Query, Context.GetQuery]
  rw [find_filter_of_imp]
  intro a ha
  have : a.1 = key := by simpa using ha
  simpa [this] using hk

theorem buildWhereClause_congr (c1 c2 : Context) (hv : c1.Query "value" = c2.Query "value")
    (ha : c1.Query "arch" = c2.Query "arch") : buildWhereClause c1 = buildWhereClause c2 := by
  simp [buildWhereClause, whereClauses_eq, hv, ha]

theorem buildWhereClause_cases (c : Context) :
    (c.Query "value" = "" ∧ c.Query "arch" = "" ∧ buildWhereClause c = "") ∨
    (c.Query "value" ≠ "" ∧ c.Query "arch" = "" ∧
      buildWhereClause c = " AND value = '" ++ c.Query "value" ++ "'") ∨
    (c.Query "value" = "" ∧ c.Query "arch" ≠ "" ∧
      buildWhereClause c = " AND arch = '" ++ c.Query "arch" ++ "'") ∨
    (c.Query "value" ≠ "" ∧ c.Query "arch" ≠ "" ∧
      buildWhereClause c =
        " AND value = '" ++ c.Query "value" ++ "' AND arch = '" ++ c.Query "arch" ++ "'") := by
  by_cases hv : c.Query "value" = "" <;> by_cases ha : c.Query "arch" = ""
  · exact Or.inl ⟨hv, ha, buildWhereClause_none c hv ha⟩
  · exact Or.inr (Or.inr (Or.inl ⟨hv, ha, buildWhereClause_arch c hv ha⟩))
  · exact Or.inr (Or.inl ⟨hv, ha, buildWhereClause_value c hv ha⟩)
  · exact Or.inr (Or.inr (Or.inr ⟨hv, ha, buildWhereClause_both c hv ha⟩))

/-! ## The text returned, case by case -/

/-- The text of the clause. With v the `value` parameter and a the `arch` parameter,
`buildWhereClause` returns ` AND value = 'v'` when only v is non-empty,
` AND arch = 'a'` when only a is non-empty, and ` AND value = 'v' AND arch = 'a'`
(value before arch) when both are; the entries of `clauses` are these and no
others. This is the text as written; what the text means as SQL is another
matter, see the sections on C1, C4 and C9. -/
theorem buildWhereClause_text (c : Context) :
    (c.Query "value" ≠ "" → c.Query "arch" = "" →
      buildWhereClause c = " AND value = '" ++ c.Query "value" ++ "'") ∧
    (c.Query "value" = "" → c.Query "arch" ≠ "" →
      buildWhereClause c = " AND arch = '" ++ c.Query "arch" ++ "'") ∧
    (c.Query "value" ≠ "" → c.Query "arch" ≠ "" →
      buildWhereClause c =
        " AND value = '" ++ c.Query "value" ++ "' AND arch = '" ++ c.Query "arch" ++ "'") ∧
    whereClauses c =
      (if c.Query "value" ≠ "" then ["value = '" ++ c.Query "value" ++ "'"] else []) ++
      (if c.Query "arch" ≠ "" then ["arch = '" ++ c.Query "arch" ++ "'"] else []) :=
  ⟨buildWhereClause_value c, buildWhereClause_arch c, buildWhereClause_both c,
    whereClauses_eq c⟩

/-- The text at the request `?arch=arm64&value=Temp=42 `: value before arch, the
capital letter and the trailing blank kept. -/
theorem buildWhereClause_text_example :
    buildWhereClause ⟨[("arch", "arm64"), ("value", "Temp=42 ")], [], ""⟩ =
      " AND value = 'Temp=42 ' AND arch = 'arm64'" :=
  (buildWhereClause_text ⟨[("arch", "arm64"), ("value", "Temp=42 ")], [], ""⟩).2.2.1
    (by decide) (by decide)

/-! ## C5: empty criteria add no restriction -/

/-- C5. `buildWhereClause` returns the empty string if and only if neither `value`
nor `arch` is supplied with a non-empty string; when at least one of them is
non-empty, the clause is non-empty and begins with ` AND `. -/
theorem buildWhereClause_empty_iff (c : Context) :
    (buildWhereClause c = "" ↔ c.Query "value" = "" ∧ c.Query "arch" = "") ∧
    (¬ (c.Query "value" = "" ∧ c.Query "arch" = "") →
      buildWhereClause c ≠ "" ∧ ∃ rest, buildWhereClause c = " AND " ++ rest) := by
  rcases buildWhereClause_cases c with ⟨hv, ha, h⟩ | ⟨hv, ha, h⟩ | ⟨hv, ha, h⟩ | ⟨hv, ha, h⟩
  · exact ⟨⟨fun _ => ⟨hv, ha⟩, fun _ => h⟩, fun hn => absurd ⟨hv, ha⟩ hn⟩
  · have hne : buildWhereClause c ≠ "" := by simp [h, string_eq_iff_data]
    exact ⟨⟨fun he => absurd he hne, fun hb => absurd hb.1 hv⟩,
      fun _ => ⟨hne, "value = '" ++ c.Query "value" ++ "'", by
        simp [h, string_eq_iff_data]⟩⟩
  · have hne : buildWhereClause c ≠ "" := by simp [h, string_eq_iff_data]
    exact ⟨⟨fun he => absurd he hne, fun hb => absurd hb.2 ha⟩,
      fun _ => ⟨hne, "arch = '" ++ c.Query "arch" ++ "'", by
        simp [h, string_eq_iff_data]⟩⟩
  · have hne : buildWhereClause c ≠ "" := by simp [h, string_eq_iff_data]
    exact ⟨⟨fun he => absurd he hne, fun hb => absurd hb.1 hv⟩,
      fun _ => ⟨hne, "value = '" ++ c.Query "value" ++ "' AND arch = '" ++ c.Query "arch" ++ "'",
        by simp [h, string_eq_iff_data]⟩⟩

/-- C5 at the request `?arch=arm64`: a non-empty clause that begins with ` AND `. -/
theorem buildWhereClause_empty_iff_witness :
    buildWhereClause ⟨[("arch", "arm64")], [], ""⟩ ≠ "" ∧
      ∃ rest, buildWhereClause ⟨[("arch", "arm64")], [], ""⟩ = " AND " ++ rest :=
  (buildWhereClause_empty_iff ⟨[("arch", "arm64")], [], ""⟩).2 (by decide)

/-! ## A parameter supplied empty adds no entry to `clauses` -/

/-- For every string a, the request with `value=""` and `arch=a` yields the same
clause as the request that carries only `arch=a`, and symmetrically for an empty
`arch`; and in every request the operand of each entry of `clauses` is a non-empty
supplied string. This speaks of the entries the function formats, not of how the
returned text reads as SQL, see the section on C9. -/
theorem empty_parameter_adds_no_entry (s : String) (headers : List (String × String))
    (body : String) :
    buildWhereClause ⟨[("value", ""), ("arch", s)], headers, body⟩ =
      buildWhereClause ⟨[("arch", s)], headers, body⟩ ∧
    buildWhereClause ⟨[("value", s), ("arch", "")], headers, body⟩ =
      buildWhereClause ⟨[("value", s)], headers, body⟩ ∧
    ∀ c : Context,
      (∀ cl ∈ whereClauses c, ∃ t, t ≠ "" ∧
        (cl = Sprintf "value = '%s'" t ∨ cl = Sprintf "arch = '%s'" t)) ∧
      Sprintf "value = '%s'" "" ∉ whereClauses c ∧
      Sprintf "arch = '%s'" "" ∉ whereClauses c := by
  refine ⟨?_, ?_, ?_⟩
  · apply buildWhereClause_congr <;> simp [Context.Query, Context.GetQuery, List.find?]
  · apply buildWhereClause_congr <;> simp [Context.Query, Context.GetQuery, List.find?]
  · intro c
    rw [whereClauses_eq]
    by_cases hv : c.Query "value" = "" <;> by_cases ha : c.Query "arch" = "" <;>
      have hvd := string_ne_empty_iff (c.Query "value") <;>
      have had := string_ne_empty_iff (c.Query "arch")
    · simp [hv, ha]
    · refine ⟨?_, ?_, ?_⟩
      · intro cl hcl
        exact ⟨c.Query "arch", ha, Or.inr (by simpa [hv, ha, sprintf_arch] using hcl)⟩
      · simp [hv, ha, sprintf_value, string_eq_iff_data]
      · simpa [hv, ha, sprintf_arch, string_eq_iff_data] using had.1 ha
    · refine ⟨?_, ?_, ?_⟩
      · intro cl hcl
        exact ⟨c.Query "value", hv, Or.inl (by simpa [hv, ha, sprintf_value] using hcl)⟩
      · simpa [hv, ha, sprintf_value, string_eq_iff_data] using hvd.1 hv
      · simp [hv, ha, sprintf_arch, string_eq_iff_data]
    · refine ⟨?_, ?_, ?_⟩
      · intro cl hcl
        have hcl2 : cl = "value = '" ++ c.Query "value" ++ "'" ∨
            cl = "arch = '" ++ c.Query "arch" ++ "'" := by simpa [hv, ha] using hcl
        rcases hcl2 with h | h
        · exact ⟨c.Query "value", hv, Or.inl (by rw [h, sprintf_value])⟩
        · exact ⟨c.Query "arch", ha, Or.inr (by rw [h, sprintf_arch])⟩
      · simpa [hv, ha, sprintf_value, sprintf_arch, string_eq_iff_data] using hvd.1 hv
      · simpa [hv, ha, sprintf_value, sprintf_arch, string_eq_iff_data] using had.1 ha

/-! ## C10: the clause depends on `value` and `arch` alone -/

/-- C10. Two requests that agree on the `value` and `arch` query parameters get the
same clause, whatever other query parameters, headers or body they carry; and the
call, in any state of the package-level variables, gives a clause that does not
depend on that state and leaves the state as it was. -/
theorem buildWhereClause_depends_only_on_value_and_arch (c1 c2 : Context) (g1 g2 : Globals)
    (hv : c1.Query "value" = c2.Query "value") (ha : c1.Query "arch" = c2.Query "arch") :
    buildWhereClause c1 = buildWhereClause c2 ∧
    (buildWhereClauseIn c1 g1).1 = (buildWhereClauseIn c2 g2).1 ∧
    (buildWhereClauseIn c1 g1).2 = g1 :=
  ⟨buildWhereClause_congr c1 c2 hv ha, buildWhereClause_congr c1 c2 hv ha, rfl⟩

/-- C10 at two requests that share `value=temp=42` and differ in their other
parameters, headers, body and in the process state. -/
theorem buildWhereClause_depends_only_on_value_and_arch_witness :
    buildWhereClause ⟨[("page", "2"), ("value", "temp=42")], [("Accept", "text/html")], "x"⟩ =
      buildWhereClause ⟨[("value", "temp=42"), ("value", "temp=99"), ("sort", "id")], [], ""⟩ ∧
    (buildWhereClauseIn ⟨[("page", "2"), ("value", "temp=42")], [("Accept", "text/html")], "x"⟩
        (initGlobals ⟨[], none, fun _ => (ByteArray.empty, none)⟩)).1 =
      (buildWhereClauseIn ⟨[("value", "temp=42"), ("value", "temp=99"), ("sort", "id")], [], ""⟩
        (initGlobals ⟨[("TELEMETRY_ADMIN_USER", "root")], some "locked",
          fun _ => (ByteArray.empty, some "missing")⟩)).1 ∧
    (buildWhereClauseIn ⟨[("page", "2"), ("value", "temp=42")], [("Accept", "text/html")], "x"⟩
        (initGlobals ⟨[], none, fun _ => (ByteArray.empty, none)⟩)).2 =
      initGlobals ⟨[], none, fun _ => (ByteArray.empty, none)⟩ :=
  buildWhereClause_depends_only_on_value_and_arch _ _ _ _ (by decide) (by decide)

/-! ## C2: the clause text and the supplied values -/

/-- C2 fails: the requests `?value=temp=42` and `?value=temp=99` have the same
non-empty subset of the two parameters, and their clause texts differ. -/
theorem clause_text_varies_with_the_value :
    (request [("value", "temp=42")]).Query "value" ≠ "" ∧
    (request [("value", "temp=99")]).Query "value" ≠ "" ∧
    (request [("value", "temp=42")]).Query "arch" = "" ∧
    (request [("value", "temp=99")]).Query "arch" = "" ∧
    buildWhereClause (request [("value", "temp=42")]) ≠
      buildWhereClause (request [("value", "temp=99")]) := by
  decide

/-- C2 amended. The returned text follows the supplied values: two requests with
the same values of `value` and `arch` get the same text, and two requests that
supply only `value` (or only `arch`) get the same text only when the supplied
contents are the same. -/
theorem clause_text_follows_the_values (c1 c2 : Context) :
    (c1.Query "value" = c2.Query "value" → c1.Query "arch" = c2.Query "arch" →
      buildWhereClause c1 = buildWhereClause c2) ∧
    (c1.Query "arch" = "" → c2.Query "arch" = "" →
      buildWhereClause c1 = buildWhereClause c2 → c1.Query "value" = c2.Query "value") ∧
    (c1.Query "value" = "" → c2.Query "value" = "" →
      buildWhereClause c1 = buildWhereClause c2 → c1.Query "arch" = c2.Query "arch") := by
  refine ⟨buildWhereClause_congr c1 c2, ?_, ?_⟩
  · intro ha1 ha2 heq
    by_cases hv1 : c1.Query "value" = "" <;> by_cases hv2 : c2.Query "value" = ""
    · rw [hv1, hv2]
    · rw [buildWhereClause_none c1 hv1 ha1, buildWhereClause_value c2 hv2 ha2] at heq
      simp [string_eq_iff_data] at heq
    · rw [buildWhereClause_value c1 hv1 ha1, buildWhereClause_none c2 hv2 ha2] at heq
      simp [string_eq_iff_data] at heq
    · rw [buildWhereClause_value c1 hv1 ha1, buildWhereClause_value c2 hv2 ha2] at heq
      simpa [string_eq_iff_data] using heq
  · intro hv1 hv2 heq
    by_cases ha1 : c1.Query "arch" = "" <;> by_cases ha2 : c2.Query "arch" = ""
    · rw [ha1, ha2]
    · rw [buildWhereClause_none c1 hv1 ha1, buildWhereClause_arch c2 hv2 ha2] at heq
      simp [string_eq_iff_data] at heq
    · rw [buildWhereClause_arch c1 hv1 ha1, buildWhereClause_none c2 hv2 ha2] at heq
      simp [string_eq_iff_data] at heq
    · rw [buildWhereClause_arch c1 hv1 ha1, buildWhereClause_arch c2 hv2 ha2] at heq
      simpa [string_eq_iff_data] using heq

/-- C2 amended, at the requests `?value=temp=42` and `?value=temp=99`: their texts
differ because their values do. -/
theorem clause_text_follows_the_values_witness :
    buildWhereClause (request [("value", "temp=42")]) ≠
      buildWhereClause (request [("value", "temp=99")]) :=
  fun h =>
    absurd
      ((clause_text_follows_the_values (request [("value", "temp=42")])
        (request [("value", "temp=99")])).2.1 (by decide) (by decide) h)
      (by decide)

/-! ## C3: parameters outside the whitelist -/

/-- C3 fails: the request `?id=1' OR '1'='1` carries a parameter whose name is
outside the whitelist, and the call returns the empty clause instead of failing
with UnrecognizedAttribute. -/
theorem unrecognized_parameter_is_not_rejected :
    (∃ p ∈ (request [("id", "1' OR '1'='1")]).query, p.1 ∉ whitelist) ∧
    buildWhereClauseOutcome (request [("id", "1' OR '1'='1")]) = Except.ok "" ∧
    buildWhereClauseOutcome (request [("id", "1' OR '1'='1")]) ≠
      Except.error FilterError.UnrecognizedAttribute := by
  refine ⟨⟨("id", "1' OR '1'='1"), by decide, by decide⟩, ?_, ?_⟩
  · have h : buildWhereClause (request [("id", "1' OR '1'='1")]) = "" := by decide
    simp [buildWhereClauseOutcome, h]
  · simp [buildWhereClauseOutcome]

/-- C3 amended. Building the filter never fails: every request gets a clause. A
query parameter whose name is outside the whitelist is ignored, whatever its
content: the clause is the one of the request without such parameters. The request
with no parameters gets the empty clause. -/
theorem unrecognized_parameters_are_ignored (c : Context) :
    (∃ clause, buildWhereClauseOutcome c = Except.ok clause) ∧
    buildWhereClause c =
      buildWhereClause { c with query := c.query.filter fun p => decide (p.1 ∈ whitelist) } ∧
    (c.query = [] → buildWhereClause c = "") := by
  refine ⟨⟨buildWhereClause c, rfl⟩, ?_, ?_⟩
  · apply buildWhereClause_congr
    · exact (query_filter_whitelist c "value" (by decide)).symm
    · exact (query_filter_whitelist c "arch" (by decide)).symm
  · intro h
    apply buildWhereClause_none <;> simp [Context.Query, Context.GetQuery, h]

/-- C3 amended, at the request with no parameters. -/
theorem unrecognized_parameters_are_ignored_witness :
    buildWhereClause (request []) = "" :=
  (unrecognized_parameters_are_ignored (request [])).2.2 rfl

/-! ## C1: the clause read by the SQL string-literal rules -/

theorem readLiteral_closed : ∀ (lit rest : List Char), quote ∉ lit →
    (∀ d tail, rest = d :: tail → d ≠ quote) →
    readLiteral (lit ++ quote :: rest) = some (lit, rest)
  | [], [], _, _ => by simp [readLiteral]
  | [], d :: tail, _, hr => by
    have hd : d ≠ quote := hr d tail rfl
    simp [readLiteral, hd]
  | [a], rest, hq, hr => by
    have ha : a ≠ quote := fun h => hq (by simp [h])
    have ih := readLiteral_closed [] rest (by simp) hr
    simp only [List.nil_append] at ih
    simp [readLiteral, ha, ih, consLiteral]
  | a :: b :: lit, rest, hq, hr => by
    have ha : a ≠ quote := fun h => hq (by simp [h])
    have ih := readLiteral_closed (b :: lit) rest (fun h => hq (List.mem_cons_of_mem _ h)) hr
    simp only [List.cons_append] at ih
    simp [readLiteral, ha, ih, consLiteral]

theorem readComparisons_value (fuel : Nat) (v rest : List Char) :
    readComparisons (fuel + 1) (" AND value = '".data ++ (v ++ quote :: rest)) =
      match readLiteral (v ++ quote :: rest) with
      | none => none
      | some (lit, s5) =>
        match readComparisons fuel s5 with
        | none => none
        | some more => some (("value", String.mk lit) :: more) := rfl

theorem readComparisons_arch (fuel : Nat) (a rest : List Char) :
    readComparisons (fuel + 1) (" AND arch = '".data ++ (a ++ quote :: rest)) =
      match readLiteral (a ++ quote :: rest) with
      | none => none
      | some (lit, s5) =>
        match readComparisons fuel s5 with
        | none => none
        | some more => some (("arch", String.mk lit) :: more) := rfl

theorem readClause_data (s : String) (fuel : Nat) (h : s.data.length = fuel) :
    readClause s = readComparisons fuel s.data := by
  subst h
  rfl

/-- When neither supplied string carries a quote, the clause reads back as exactly
the comparisons asked for. -/
theorem readClause_of_quote_free (c : Context) (hv : quote ∉ (c.Query "value").data)
    (ha : quote ∉ (c.Query "arch").data) :
    readClause (buildWhereClause c) = some (requestedComparisons c) := by
  have hnil : ∀ d tail, ([] : List Char) = d :: tail → d ≠ quote := fun _ _ h => by cases h
  have hsp : ∀ d tail, " AND arch = '".data ++ ((c.Query "arch").data ++ [quote]) = d :: tail →
      d ≠ quote := by
    intro d tail h
    have hd : d = ' ' := by
      have := congrArg List.head? h
      simpa using this.symm
    rw [hd]
    decide
  rcases buildWhereClause_cases c with ⟨h1, h2, h⟩ | ⟨h1, h2, h⟩ | ⟨h1, h2, h⟩ | ⟨h1, h2, h⟩
  · rw [h]
    simp [requestedComparisons, h1, h2]
    rfl
  · have hd : (buildWhereClause c).data =
        " AND value = '".data ++ ((c.Query "value").data ++ quote :: []) := by
      rw [h]; simp; rfl
    rw [readClause_data _ ((c.Query "value").data.length + 14 + 1) (by rw [hd]; simp), hd,
      readComparisons_value, readLiteral_closed _ _ hv hnil]
    simp [requestedComparisons, h1, h2, readComparisons]
  · have hd : (buildWhereClause c).data =
        " AND arch = '".data ++ ((c.Query "arch").data ++ quote :: []) := by
      rw [h]; simp; rfl
    rw [readClause_data _ ((c.Query "arch").data.length + 13 + 1) (by rw [hd]; simp), hd,
      readComparisons_arch, readLiteral_closed _ _ ha hnil]
    simp [requestedComparisons, h1, h2, readComparisons]
  · have hd : (buildWhereClause c).data =
        " AND value = '".data ++ ((c.Query "value").data ++ quote ::
          (" AND arch = '".data ++ ((c.Query "arch").data ++ [quote]))) := by
      rw [h]; simp; rfl
    rw [readClause_data _
        ((c.Query "value").data.length + (c.Query "arch").data.length + 27 + 1 + 1)
        (by rw [hd]; simp; omega), hd,
      readComparisons_value, readLiteral_closed _ _ hv hsp]
    simp only []
    rw [readComparisons_arch, readLiteral_closed _ _ ha hnil]
    simp [requestedComparisons, h1, h2, readComparisons]

/-- C1 at the request `?value=x' AND arch = 'y`: one parameter is supplied, and the
clause reads as two comparisons, `value` against `x` and `arch` against `y`;
neither literal is the supplied string. -/
theorem quote_in_value_forges_a_comparison :
    requestedComparisons (request [("value", "x' AND arch = 'y")]) =
      [("value", "x' AND arch = 'y")] ∧
    buildWhereClause (request [("value", "x' AND arch = 'y")]) =
      " AND value = 'x' AND arch = 'y'" ∧
    readClause (buildWhereClause (request [("value", "x' AND arch = 'y")])) =
      some [("value", "x"), ("arch", "y")] := by
  decide

/-- Two requests that ask for different comparisons get the same clause text: the
text does not determine the supplied strings. -/
theorem distinct_requests_same_clause :
    requestedComparisons (request [("value", "x' AND arch = 'y"), ("arch", "z")]) ≠
      requestedComparisons (request [("value", "x"), ("arch", "y' AND arch = 'z")]) ∧
    buildWhereClause (request [("value", "x' AND arch = 'y"), ("arch", "z")]) =
      buildWhereClause (request [("value", "x"), ("arch", "y' AND arch = 'z")]) := by
  decide

/-! ## C9: the clause read at a value that carries a quote -/

/-- C9 at the requests `?value=x' AND arch = '` and `?value=' AND arch = '`, both
without an `arch` parameter. The first returns ` AND value = 'x' AND arch = ''`:
the text compares `arch` with the empty string. The second returns
` AND value = '' AND arch = ''`: it compares both attributes with the empty
string. In both the function formats a single entry, whose operand is the
supplied non-empty string. -/
theorem quote_in_value_reads_as_empty_comparison :
    (request [("value", "x' AND arch = '")]).Query "arch" = "" ∧
    whereClauses (request [("value", "x' AND arch = '")]) =
      [Sprintf "value = '%s'" "x' AND arch = '"] ∧
    buildWhereClause (request [("value", "x' AND arch = '")]) =
      " AND value = 'x' AND arch = ''" ∧
    readClause (buildWhereClause (request [("value", "x' AND arch = '")])) =
      some [("value", "x"), ("arch", "")] ∧
    buildWhereClause (request [("value", "' AND arch = '")]) =
      " AND value = '' AND arch = ''" ∧
    readClause (buildWhereClause (request [("value", "' AND arch = '")])) =
      some [("value", ""), ("arch", "")] := by
  decide

/-! ## C4: the clause read at a value that carries a quote -/

/-- C4 at the requests `?value=x' OR id > '0` and `?value=x' AND arch = 'y`, both
without an `arch` parameter. The first returns ` AND value = 'x' OR id > '0'`: the
literal of the `value` comparison ends after `x`, and the text that follows
constrains the attribute `id` with an operator other than equality, so the clause
is no conjunction of equality comparisons. The second returns the very text of the
request `?value=x&arch=y`: `arch` is constrained although no `arch` was supplied. -/
theorem quote_in_value_constrains_another_attribute :
    (request [("value", "x' OR id > '0")]).Query "arch" = "" ∧
    buildWhereClause (request [("value", "x' OR id > '0")]) =
      " AND value = 'x' OR id > '0'" ∧
    readLiteral "x' OR id > '0'".data = some ("x".data, " OR id > '0'".data) ∧
    readClause (buildWhereClause (request [("value", "x' OR id > '0")])) = none ∧
    (request [("value", "x' AND arch = 'y")]).Query "arch" = "" ∧
    requestedComparisons (request [("value", "x' AND arch = 'y")]) ≠
      requestedComparisons (request [("value", "x"), ("arch", "y")]) ∧
    buildWhereClause (request [("value", "x' AND arch = 'y")]) =
      buildWhereClause (request [("value", "x"), ("arch", "y")]) := by
  decide

/-! ## Further readings of the clause -/

/-- A value that carries one quote leaves text after the literal that is no
comparison: the clause is not a conjunction of equality comparisons at all. -/
theorem quote_in_value_breaks_the_clause :
    readClause (buildWhereClause (request [("value", "it's")])) = none ∧
    readClause (buildWhereClause (request [("value", "1' OR '1'='1")])) = none := by
  decide

/-! ## C7: loading the dashboard asset -/

/-- C7. For every outcome of reading `dashboard/index.html`, `loadDashboard`
returns to its caller; when the read fails `dashboardHTML` is the fixed
placeholder page, and when it succeeds `dashboardHTML` is exactly the bytes
read. -/
theorem loadDashboard_never_fails (w : World) (g : Globals) :
    ∃ g1, loadDashboard w g = Exit.returned g1 ∧
      ((w.readFile "dashboard/index.html").2 ≠ none →
        g1.dashboardHTML =
          "<html><body><h1>Dashboard template not found</h1></body></html>".toUTF8) ∧
      ((w.readFile "dashboard/index.html").2 = none →
        g1.dashboardHTML = (w.readFile "dashboard/index.html").1) := by
  unfold loadDashboard
  rcases hr : w.readFile "dashboard/index.html" with ⟨data, err⟩
  cases err with
  | none => exact ⟨_, rfl, fun h => absurd rfl h, fun _ => rfl⟩
  | some e => exact ⟨_, rfl, fun _ => rfl, fun h => by cases h⟩

/-- C7 at a world where the file is missing: the placeholder page is served. -/
theorem loadDashboard_never_fails_witness :
    ∃ g1, loadDashboard ⟨[], none, fun _ => (ByteArray.empty, some "no such file")⟩
        (initGlobals ⟨[], none, fun _ => (ByteArray.empty, some "no such file")⟩) =
          Exit.returned g1 ∧
      g1.dashboardHTML =
        "<html><body><h1>Dashboard template not found</h1></body></html>".toUTF8 :=
  match loadDashboard_never_fails ⟨[], none, fun _ => (ByteArray.empty, some "no such file")⟩
      (initGlobals ⟨[], none, fun _ => (ByteArray.empty, some "no such file")⟩) with
  | ⟨g1, h, hfail, _⟩ => ⟨g1, h, hfail (by simp)⟩

/-! ## C6: the credential check of `main` -/

theorem getenv_eq_empty_iff (w : World) (key : String) :
    Getenv w key = "" ↔ unsetOrEmpty w key := by
  unfold Getenv unsetOrEmpty
  cases w.env.lookup key <;> simp

/-- C6. In every environment in which TELEMETRY_ADMIN_USER or TELEMETRY_ADMIN_PASS
is unset or empty, the process exits through `log.Fatalf` and has neither called
`initRouter` nor `r.Run` before. When both are non-empty, the credential check does
not end the process: no exit carries the credential message, and once the database
has opened, `main` calls `initRouter` and then `r.Run` on the listen address. -/
theorem main_refuses_to_start_without_credentials (w : World) :
    (unsetOrEmpty w "TELEMETRY_ADMIN_USER" ∨ unsetOrEmpty w "TELEMETRY_ADMIN_PASS" →
      ∃ g, runProcess w = Exit.fatal g ∧ Action.initRouter ∉ g.actions ∧
        ∀ addr, Action.run addr ∉ g.actions) ∧
    (¬ unsetOrEmpty w "TELEMETRY_ADMIN_USER" → ¬ unsetOrEmpty w "TELEMETRY_ADMIN_PASS" →
      (∀ g, runProcess w = Exit.fatal g →
        Action.logFatalf credentialMessage ∉ g.actions ∧ w.dbOpenErr ≠ none) ∧
      (w.dbOpenErr = none →
        ∃ g before between, runProcess w = Exit.returned g ∧
          g.actions =
            before ++ [Action.initRouter] ++ between ++ [Action.run (listenAddr w)])) := by
  rcases hr : w.readFile "dashboard/index.html" with ⟨data, err⟩
  constructor
  · intro h
    have hc : Getenv w "TELEMETRY_ADMIN_USER" = "" ∨ Getenv w "TELEMETRY_ADMIN_PASS" = "" :=
      h.imp (getenv_eq_empty_iff w _).2 (getenv_eq_empty_iff w _).2
    cases hdb : w.dbOpenErr with
    | some e =>
      exact ⟨_, by simp [runProcess, main, initDB, hdb, Exit.andThen]; rfl,
        by simp [Globals.act, initGlobals], by simp [Globals.act, initGlobals]⟩
    | none =>
      cases err with
      | none =>
        exact ⟨_, by
          simp [runProcess, main, initDB, loadDashboard, hdb, hr, Exit.andThen, Globals.act,
            initGlobals, hc]; rfl, by simp, by simp⟩
      | some e =>
        exact ⟨_, by
          simp [runProcess, main, initDB, loadDashboard, hdb, hr, Exit.andThen, Globals.act,
            initGlobals, hc]; rfl, by simp, by simp⟩
  · intro hu hp
    have hu1 : Getenv w "TELEMETRY_ADMIN_USER" ≠ "" := fun h => hu ((getenv_eq_empty_iff w _).1 h)
    have hp1 : Getenv w "TELEMETRY_ADMIN_PASS" ≠ "" := fun h => hp ((getenv_eq_empty_iff w _).1 h)
    have hmsg : ∀ e : String, "数据库连接失败: " ++ e ≠ credentialMessage := by
      intro e h
      have hd := congrArg String.data h
      simp [credentialMessage] at hd
    constructor
    · intro g hg
      cases hdb : w.dbOpenErr with
      | some e =>
        have hg1 : g = ((initGlobals w).act (Action.gormOpen "telemetry.db")).act
            (Action.logFatalf ("数据库连接失败: " ++ e)) := by
          simp [runProcess, main, initDB, hdb, Exit.andThen] at hg
          exact hg.symm
        subst hg1
        exact ⟨by simpa [Globals.act, initGlobals] using (hmsg e).symm, by simp⟩
      | none =>
        cases err <;>
          simp [runProcess, main, initDB, loadDashboard, hdb, hr, Exit.andThen, Globals.act,
            initGlobals, hu1, hp1] at hg
    · intro hdb
      cases err with
      | none =>
        simp [runProcess, main, initDB, loadDashboard, hdb, hr, Exit.andThen, Globals.act,
            initGlobals, hu1, hp1, listenAddr]
        exact ⟨[_, _, _, _, _, _], [_], rfl⟩
      | some e =>
        simp [runProcess, main, initDB, loadDashboard, hdb, hr, Exit.andThen, Globals.act,
            initGlobals, hu1, hp1, listenAddr]
        exact ⟨[_, _, _, _, _, _], [_], rfl⟩

/-- C6 at an environment that sets the user and leaves the password unset: the
process exits before `initRouter` and `r.Run`; and at one that sets both, with the
database open: the process registers the routes and listens on port 8080. -/
theorem main_refuses_to_start_without_credentials_witness :
    (∃ g, runProcess ⟨[("TELEMETRY_ADMIN_USER", "admin")], none,
        fun _ => (ByteArray.empty, none)⟩ = Exit.fatal g ∧
      Action.initRouter ∉ g.actions ∧ ∀ addr, Action.run addr ∉ g.actions) ∧
    (∃ g before between,
      runProcess ⟨[("TELEMETRY_ADMIN_USER", "admin"), ("TELEMETRY_ADMIN_PASS", "secret")], none,
        fun _ => (ByteArray.empty, none)⟩ = Exit.returned g ∧
      g.actions = before ++ [Action.initRouter] ++ between ++ [Action.run ":8080"]) :=
  ⟨(main_refuses_to_start_without_credentials
      ⟨[("TELEMETRY_ADMIN_USER", "admin")], none, fun _ => (ByteArray.empty, none)⟩).1
      (Or.inr (Or.inl (by decide))),
    ((main_refuses_to_start_without_credentials
      ⟨[("TELEMETRY_ADMIN_USER", "admin"), ("TELEMETRY_ADMIN_PASS", "secret")], none,
        fun _ => (ByteArray.empty, none)⟩).2
      (by unfold unsetOrEmpty; decide) (by unfold unsetOrEmpty; decide)).2 rfl⟩

/-! ## C8: fan-out in hub-processing order -/

theorem find_filterMap_of_id {f : Session → Option Session} (sid : Nat)
    (hf : ∀ x y, f x = some y → y.id = x.id) (l : List Session) (s t : Session)
    (hs : l.find? (fun x => x.id = sid) = some s) (hfs : f s = some t) :
    (l.filterMap f).find? (fun x => x.id = sid) = some t := by
  induction l with
  | nil => simp at hs
  | cons a l ih =>
    by_cases ha : a.id = sid
    · have hsa : a = s := by simpa [List.find?, ha] using hs
      subst hsa
      have ht : t.id = sid := by rw [hf a t hfs, ha]
      simp [List.filterMap_cons, hfs, List.find?, ht]
    · have hs1 : l.find? (fun x => x.id = sid) = some s := by
        simpa [List.find?, ha] using hs
      cases hfa : f a with
      | none => simpa [List.filterMap_cons, hfa] using ih hs1
      | some b =>
        have hb : b.id ≠ sid := by rw [hf a b hfa]; exact ha
        simpa [List.filterMap_cons, hfa, List.find?, hb] using ih hs1

theorem find_map_of_id {f : Session → Session} (sid : Nat) (hf : ∀ x, (f x).id = x.id)
    (l : List Session) (s : Session) (hs : l.find? (fun x => x.id = sid) = some s) :
    (l.map f).find? (fun x => x.id = sid) = some (f s) := by
  induction l with
  | nil => simp at hs
  | cons a l ih =>
    by_cases ha : a.id = sid
    · have hsa : a = s := by simpa [List.find?, ha] using hs
      subst hsa
      simp [List.find?, hf, ha]
    · have hs1 : l.find? (fun x => x.id = sid) = some s := by
        simpa [List.find?, ha] using hs
      simpa [List.find?, hf, ha] using ih hs1

theorem enqueue_id (e : BroadcastEvent) (x y : Session) (h : x.Enqueue e = some y) :
    y.id = x.id := by
  unfold Session.Enqueue at h
  split at h
  · cases h; rfl
  · cases h

theorem take_id (x : Session) : x.take.id = x.id := by
  unfold Session.take
  cases x.queue <;> rfl

theorem take_delivered (x : Session) : x.take.delivered = x.delivered := by
  unfold Session.take Session.delivered
  cases hq : x.queue <;> simp [hq]

theorem publish_session (h : Hub) (r : TelemetryRecord) (sid : Nat) (s : Session)
    (hs : h.session sid = some s) (hroom : s.queue.length < s.capacity) :
    ∃ t, (h.publish r).session sid = some t ∧
      t.delivered = s.delivered ++ [{ seq := h.nextSeq, record := r }] := by
  refine ⟨{ s with queue := s.queue ++ [{ seq := h.nextSeq, record := r }] }, ?_, ?_⟩
  · exact find_filterMap_of_id sid (fun x y => enqueue_id _ x y) h.sessions s _ hs
      (by simp [Session.Enqueue, hroom])
  · simp [Session.delivered]

theorem take_session (h : Hub) (t sid : Nat) (s : Session) (hs : h.session sid = some s) :
    ∃ u, (h.step (Step.viewerTakes t)).session sid = some u ∧ u.delivered = s.delivered := by
  refine ⟨if s.id = t then s.take else s, ?_, ?_⟩
  · exact find_map_of_id sid (fun x => by split <;> simp [take_id]) h.sessions s hs
  · split <;> simp [take_delivered]

theorem run_delivers : ∀ (steps : List Step) (h : Hub) (sid : Nat) (s : Session),
    h.session sid = some s → publishing steps = true → queueNeverFills sid h steps = true →
    ∃ t, (h.run steps).session sid = some t ∧
      t.delivered = s.delivered ++ publishedEvents h.nextSeq steps
  | [], h, sid, s, hs, _, _ => ⟨s, hs, by simp [publishedEvents]⟩
  | Step.hub (HubEvent.NewRecord r) :: rest, h, sid, s, hs, hp, hq => by
    simp only [queueNeverFills, hs, Bool.and_eq_true, decide_eq_true_eq] at hq
    obtain ⟨t, ht, htd⟩ := publish_session h r sid s hs hq.1
    obtain ⟨u, hu, hud⟩ := run_delivers rest (h.publish r) sid t ht hp hq.2
    refine ⟨u, hu, ?_⟩
    rw [hud, htd]
    simp [publishedEvents, Hub.publish]
  | Step.hub (HubEvent.SessionJoined _) :: _, _, _, _, _, hp, _ => by
    simp [publishing] at hp
  | Step.hub (HubEvent.SessionLeft _) :: _, _, _, _, _, hp, _ => by
    simp [publishing] at hp
  | Step.viewerTakes v :: rest, h, sid, s, hs, hp, hq => by
    simp only [queueNeverFills, hs, Bool.and_eq_true, true_and] at hq
    obtain ⟨t, ht, htd⟩ := take_session h v sid s hs
    obtain ⟨u, hu, hud⟩ := run_delivers rest (h.step (Step.viewerTakes v)) sid t ht hp hq
    refine ⟨u, hu, ?_⟩
    rw [hud, htd]
    simp [publishedEvents, Hub.step]

theorem publishedEvents_records : ∀ (steps : List Step) (seq : Nat),
    (publishedEvents seq steps).map BroadcastEvent.record = publishedRecords steps
  | [], _ => rfl
  | Step.hub (HubEvent.NewRecord r) :: rest, seq => by
    simp [publishedEvents, publishedRecords, publishedEvents_records rest]
  | Step.hub (HubEvent.SessionJoined _) :: rest, seq => by
    simp [publishedEvents, publishedRecords, publishedEvents_records rest]
  | Step.hub (HubEvent.SessionLeft _) :: rest, seq => by
    simp [publishedEvents, publishedRecords, publishedEvents_records rest]
  | Step.viewerTakes _ :: rest, seq => by
    simp [publishedEvents, publishedRecords, publishedEvents_records rest]

theorem publishedEvents_seqs : ∀ (steps : List Step) (seq : Nat),
    (publishedEvents seq steps).map BroadcastEvent.seq =
      List.range' seq (publishedRecords steps).length
  | [], _ => rfl
  | Step.hub (HubEvent.NewRecord r) :: rest, seq => by
    simp [publishedEvents, publishedRecords, publishedEvents_seqs rest, List.range'_succ]
  | Step.hub (HubEvent.SessionJoined _) :: rest, seq => by
    simp [publishedEvents, publishedRecords, publishedEvents_seqs rest]
  | Step.hub (HubEvent.SessionLeft _) :: rest, seq => by
    simp [publishedEvents, publishedRecords, publishedEvents_seqs rest]
  | Step.viewerTakes _ :: rest, seq => by
    simp [publishedEvents, publishedRecords, publishedEvents_seqs rest]

/-- C8. When the hub handles a sequence of steps in which N records are published
and the viewers take events from their queues, with the M sessions of the registry
neither joining nor leaving, every registered session whose queue never fills has
been delivered, on top of what it had, exactly the N BroadcastEvents of those
records, numbered consecutively, in the order the hub handled them; the list is the
same for every such session. -/
theorem hub_delivers_published_events_in_order (h : Hub) (steps : List Step)
    (hp : publishing steps = true) :
    (publishedEvents h.nextSeq steps).map BroadcastEvent.record = publishedRecords steps ∧
    (publishedEvents h.nextSeq steps).map BroadcastEvent.seq =
      List.range' h.nextSeq (publishedRecords steps).length ∧
    ∀ (sid : Nat) (s : Session), h.session sid = some s →
      queueNeverFills sid h steps = true →
      ∃ t, (h.run steps).session sid = some t ∧
        t.delivered = s.delivered ++ publishedEvents h.nextSeq steps :=
  ⟨publishedEvents_records steps h.nextSeq, publishedEvents_seqs steps h.nextSeq,
    fun sid s hs hq => run_delivers steps h sid s hs hp hq⟩

/-- C8 at the sample hub: sessions 1 and 3, whose queues never fill, are delivered
the three events numbered 5, 6, 7 in publication order; session 2, whose queue of
one event is full at the second publication, is evicted. -/
theorem hub_delivers_published_events_in_order_witness :
    (∃ t, (sampleHub.run sampleSteps).session 1 = some t ∧
      t.delivered =
        [⟨5, sampleRecord 10⟩, ⟨6, sampleRecord 11⟩, ⟨7, sampleRecord 12⟩]) ∧
    (∃ t, (sampleHub.run sampleSteps).session 3 = some t ∧
      t.delivered =
        [⟨5, sampleRecord 10⟩, ⟨6, sampleRecord 11⟩, ⟨7, sampleRecord 12⟩]) ∧
    queueNeverFills 2 sampleHub sampleSteps = false ∧
    (sampleHub.run sampleSteps).session 2 = none :=
  ⟨(hub_delivers_published_events_in_order sampleHub sampleSteps (by decide)).2.2 1
      ⟨1, 3, [], []⟩ (by decide) (by decide),
    (hub_delivers_published_events_in_order sampleHub sampleSteps (by decide)).2.2 3
      ⟨3, 8, [], []⟩ (by decide) (by decide),
    by decide, by decide⟩

end AimerWT
